import Mathlib

/-!
Verification of the spatial-alignment and streaming claims of the
tactics-web repository against a shallow embedding of its frontend code.

The embedding translates the relevant functions of
`frontend/tactics-app/app/dashboard/components/visualization.tsx` and
`frontend/tactics-app/hooks/useWebSocket.ts` into Lean.  JavaScript
numbers are modelled as exact rationals (`ℚ`); quantities the source
obtains through floating-point `Math.sqrt` / `Math.atan2` / `Math.tan`
are modelled over `ℝ`.  The source's `Infinity`-seeded min/max
accumulation loops are modelled by seeding the fold with the first list
element, which computes the same bounds whenever at least one point
exists (the only situation the rendering code meaningfully supports).

`useWebSocket.ts` in the repository snapshot bundles two revisions of
the hook; the current revision (the one the dashboard page depends on
for frame numbers, with default fps 25 and the `frame_number` merge in
the `simulation_frame` handler) is the one embedded here.
-/

namespace TacticsWeb

/-- Axis-aligned bounding rectangle over the ground plane, the record
`{minX, maxX, minZ, maxZ}` used throughout `visualization.tsx`. -/
structure Bounds where
  minX : ℚ
  maxX : ℚ
  minZ : ℚ
  maxZ : ℚ
deriving DecidableEq, Repr

/-- Fallback map bounds returned when no map data or no roads are
present (`visualization.tsx`, line 437). -/
def defaultMapBounds : Bounds := ⟨-200, 200, -30, 30⟩

/-- Symmetric padding of a bounding rectangle (`visualization.tsx`,
lines 454-460: `padding = 50` applied to all four scalars). -/
def Bounds.pad (b : Bounds) (p : ℚ) : Bounds :=
  ⟨b.minX - p, b.maxX + p, b.minZ - p, b.maxZ + p⟩

/-- Horizontal center of a bounding rectangle, `(minX + maxX) / 2`
(`visualization.tsx`, lines 515-520 and 527-533). -/
def Bounds.centerX (b : Bounds) : ℚ := (b.minX + b.maxX) / 2

/-- Lateral center of a bounding rectangle, `(minZ + maxZ) / 2`. -/
def Bounds.centerZ (b : Bounds) : ℚ := (b.minZ + b.maxZ) / 2

/-- One accumulation step of the min/max bounds loops in
`visualization.tsx` (lines 237-244, 445-451, 476-481). -/
def growPoint (b : Bounds) (q : ℚ × ℚ) : Bounds :=
  ⟨min b.minX q.1, max b.maxX q.1, min b.minZ q.2, max b.maxZ q.2⟩

/-- Min/max accumulation over a point list.  The source seeds the loop
with `±Infinity`; over exact rationals this is modelled by seeding with
the first point, which yields the same rectangle for every non-empty
list, and `none` (the degenerate case) for the empty list. -/
def boundsOfPoints : List (ℚ × ℚ) → Option Bounds
  | [] => none
  | p :: ps => some (ps.foldl growPoint ⟨p.1, p.1, p.2, p.2⟩)

/-- The expand-only merge of two rectangles used to grow the locked
focus region (`visualization.tsx`, lines 506-511): coordinate-wise min
of the minima and max of the maxima. -/
def expandBounds (cur addition : Bounds) : Bounds :=
  ⟨min cur.minX addition.minX, max cur.maxX addition.maxX,
   min cur.minZ addition.minZ, max cur.maxZ addition.maxZ⟩

/-- C9: the bounds expansion never produces a rectangle smaller than
either input (each output min is ≤ both input minima and each output
max is ≥ both input maxima), is order-independent, and is idempotent. -/
theorem expandBounds_superset_comm_idem (a b r : Bounds) :
    ((expandBounds a b).minX ≤ a.minX ∧ (expandBounds a b).minX ≤ b.minX ∧
     (expandBounds a b).minZ ≤ a.minZ ∧ (expandBounds a b).minZ ≤ b.minZ ∧
     a.maxX ≤ (expandBounds a b).maxX ∧ b.maxX ≤ (expandBounds a b).maxX ∧
     a.maxZ ≤ (expandBounds a b).maxZ ∧ b.maxZ ≤ (expandBounds a b).maxZ) ∧
    expandBounds a b = expandBounds b a ∧
    expandBounds r r = r := by
  refine ⟨⟨min_le_left _ _, min_le_right _ _, min_le_left _ _, min_le_right _ _,
          le_max_left _ _, le_max_right _ _, le_max_left _ _, le_max_right _ _⟩, ?_, ?_⟩
  · simp [expandBounds, min_comm, max_comm]
  · cases r
    simp [expandBounds]

/-- Per-vehicle wire/render record (`visualization.tsx`, lines 97-107):
planar position, planar velocity, heading, and optional static
attributes. -/
structure VehicleData where
  id : Int
  x : ℚ
  y : ℚ
  vx : ℚ
  vy : ℚ
  heading : ℚ
  length : Option ℚ
  width : Option ℚ
  type : Option String
deriving DecidableEq, Repr

/-- One road of the map payload; only its polyline matters for bounds
computation (`visualization.tsx`, lines 191-198). -/
structure MapRoad where
  coordinates : List (ℚ × ℚ × ℚ)
deriving DecidableEq, Repr

/-- Map payload as consumed by the visualization; lanes and boundaries
never enter the bounds computation, so only roads are carried. -/
structure MapDataType where
  roads : List MapRoad
deriving DecidableEq, Repr

/-- All planar points of the map's roads, projecting each 3D coordinate
to its `(x, z)` components as the bounds loop does
(`visualization.tsx`, lines 445-451: `coord[0]` and `coord[2]`). -/
def roadPoints (md : MapDataType) : List (ℚ × ℚ) :=
  (md.roads.map (fun r => r.coordinates)).flatten.map (fun c => (c.1, c.2.2))

/-- The padded map bounds (`visualization.tsx`, lines 435-461): default
rectangle when no map data or no roads, otherwise the min/max rectangle
over all road points padded by 50.  A road list whose polylines are all
empty would leave the source's `±Infinity` seeds untouched; that
unrepresentable degenerate case is mapped to the same fallback and is
exercised by no claim. -/
def mapBoundsOf (mapData : Option MapDataType) : Bounds :=
  match mapData with
  | none => defaultMapBounds
  | some md =>
    if md.roads.isEmpty then defaultMapBounds
    else
      match boundsOfPoints (roadPoints md) with
      | none => defaultMapBounds
      | some b => b.pad 50

/-- Current-frame vehicle bounds (`visualization.tsx`, lines 470-483):
`null` when the vehicle list is empty, otherwise min/max over each
vehicle's `(x, y)` (the `y` coordinate is the lateral/Z axis). -/
def vehicleBoundsOf (vehicles : List VehicleData) : Option Bounds :=
  boundsOfPoints (vehicles.map (fun v => (v.x, v.y)))

/-- The per-render focus bounds (`visualization.tsx`, lines 487-499):
the map bounds merged with the current vehicle bounds when the latter
exist. -/
def focusBoundsOf (mb : Bounds) : Option Bounds → Bounds
  | none => mb
  | some vb => ⟨min mb.minX vb.minX, max mb.maxX vb.maxX,
                min mb.minZ vb.minZ, max mb.maxZ vb.maxZ⟩

/-- The two pieces of cross-frame rendering state held in refs by the
`Visualization` component: `lockedFocusBoundsRef` (lines 428-433) and
`vehicleOffsetRef` (line 524). -/
structure RenderState where
  lockedFocusBounds : Option Bounds
  vehicleOffset : Option (ℚ × ℚ)
deriving DecidableEq, Repr

/-- Both refs start `null` at the beginning of a rendering session. -/
def initialRenderState : RenderState := ⟨none, none⟩

/-- Application of the frozen offset to a vehicle list
(`visualization.tsx`, lines 545-555): the list is returned untouched if
the offset is unset or zero, otherwise every vehicle's `x` and `y` are
shifted by the offset components. -/
def adjustedVehiclesOf (offset : Option (ℚ × ℚ)) (vehicles : List VehicleData) :
    List VehicleData :=
  match offset with
  | none => vehicles
  | some o =>
    if o.1 = 0 ∧ o.2 = 0 then vehicles
    else vehicles.map (fun v => { v with x := v.x + o.1, y := v.y + o.2 })

/-- One render pass of the `Visualization` component for a fixed map and
the current frame's vehicle list: updates the locked focus bounds
(lines 501-512), computes the one-time vehicle offset from the map
center and the first non-empty vehicle bounds (lines 515-541), and
produces the adjusted vehicle list (lines 545-555). -/
def renderStep (mapData : Option MapDataType) (vehicles : List VehicleData)
    (s : RenderState) : RenderState × List VehicleData :=
  let mb := mapBoundsOf mapData
  let vb := vehicleBoundsOf vehicles
  let fb := focusBoundsOf mb vb
  let locked :=
    match s.lockedFocusBounds with
    | none => fb
    | some cur =>
      match vb with
      | none => cur
      | some _ => expandBounds cur fb
  let vehicleCenter := vb.map (fun b => (b.centerX, b.centerZ))
  let offset :=
    match s.vehicleOffset, vehicleCenter with
    | none, some vc => some (mb.centerX - vc.1, mb.centerZ - vc.2)
    | o, _ => o
  (⟨some locked, offset⟩, adjustedVehiclesOf offset vehicles)

/-- Folding `renderStep` over a sequence of frames within one rendering
session (the map data never changes within a session). -/
def processFrames (mapData : Option MapDataType) (s : RenderState)
    (frames : List (List VehicleData)) : RenderState :=
  frames.foldl (fun st f => (renderStep mapData f st).1) s

/-- Mapping a vehicle list through a zero shift returns it unchanged. -/
theorem map_zero_shift (vehicles : List VehicleData) :
    vehicles.map (fun v => { v with x := v.x + 0, y := v.y + 0 }) = vehicles := by
  have h : ∀ v : VehicleData, ({ v with x := v.x + 0, y := v.y + 0 } : VehicleData) = v := by
    intro v; cases v; simp
  calc vehicles.map (fun v => { v with x := v.x + 0, y := v.y + 0 })
      = vehicles.map id := List.map_congr_left (fun v _ => h v)
    _ = vehicles := List.map_id vehicles

/-- Applying a set offset always equals mapping the componentwise shift
over the list; the source's zero-offset early return is extensionally
the same map. -/
theorem adjustedVehiclesOf_some_eq (o : ℚ × ℚ) (vehicles : List VehicleData) :
    adjustedVehiclesOf (some o) vehicles
      = vehicles.map (fun v => { v with x := v.x + o.1, y := v.y + o.2 }) := by
  by_cases h0 : o.1 = 0 ∧ o.2 = 0
  · simp only [adjustedVehiclesOf, if_pos h0]
    rw [h0.1, h0.2, map_zero_shift]
  · simp only [adjustedVehiclesOf, if_neg h0]

/-- The adjusted vehicle list of a render pass is the offset application
to the input list, with the offset produced by the same pass. -/
theorem renderStep_snd_eq (mapData : Option MapDataType) (vehicles : List VehicleData)
    (s : RenderState) :
    (renderStep mapData vehicles s).2
      = adjustedVehiclesOf (renderStep mapData vehicles s).1.vehicleOffset vehicles := rfl

/-- C1: on the first render with a non-empty vehicle list, the computed
alignment offset is the map-bounds center minus the vehicle-bounds
center, componentwise, and that offset is added to every vehicle's
planar position in the adjusted list. -/
theorem firstFrame_offset (mapData : Option MapDataType) (vehicles : List VehicleData)
    (s : RenderState) (vb : Bounds) (dx dz : ℚ)
    (hoff : s.vehicleOffset = none)
    (hvb : vehicleBoundsOf vehicles = some vb)
    (hdx : dx = (mapBoundsOf mapData).centerX - vb.centerX)
    (hdz : dz = (mapBoundsOf mapData).centerZ - vb.centerZ) :
    (renderStep mapData vehicles s).1.vehicleOffset = some (dx, dz) ∧
    (renderStep mapData vehicles s).2 =
      vehicles.map (fun v => { v with x := v.x + dx, y := v.y + dz }) := by
  have h1 : (renderStep mapData vehicles s).1.vehicleOffset = some (dx, dz) := by
    simp [renderStep, hoff, hvb, hdx, hdz]
  refine ⟨h1, ?_⟩
  rw [renderStep_snd_eq, h1, adjustedVehiclesOf_some_eq]

/-- Concrete map used by the E2E scenario B witness: a single road whose
raw bounds are `{minX: -100, maxX: 100, minZ: -20, maxZ: 20}`. -/
def scenarioMap : MapDataType := ⟨[⟨[(-100, 0, -20), (100, 0, 20)]⟩]⟩

/-- Concrete first-frame vehicle centered at `(500, 500)` for the E2E
scenario B witness. -/
def scenarioVehicle : VehicleData :=
  ⟨1, 500, 500, 0, 0, 0, none, none, none⟩

/-- Witness for C1, E2E scenario B: with map bounds centered at the
origin and the first vehicle frame centered at `(500, 500)`, the offset
is `(-500, -500)` and the adjusted vehicle sits at `(0, 0)`. -/
theorem firstFrame_offset_witness :
    (renderStep (some scenarioMap) [scenarioVehicle] initialRenderState).1.vehicleOffset
      = some (-500, -500) ∧
    (renderStep (some scenarioMap) [scenarioVehicle] initialRenderState).2
      = [{ scenarioVehicle with x := 0, y := 0 }] := by
  have h := firstFrame_offset (some scenarioMap) [scenarioVehicle] initialRenderState
    ⟨500, 500, 500, 500⟩ (-500) (-500) rfl
    (by simp [vehicleBoundsOf, boundsOfPoints, scenarioVehicle])
    (by norm_num [mapBoundsOf, roadPoints, boundsOfPoints, growPoint, Bounds.pad,
          Bounds.centerX, scenarioMap, min_def, max_def])
    (by norm_num [mapBoundsOf, roadPoints, boundsOfPoints, growPoint, Bounds.pad,
          Bounds.centerZ, scenarioMap, min_def, max_def])
  refine ⟨h.1, ?_⟩
  rw [h.2]
  norm_num [scenarioVehicle]

/-- C2: once the alignment offset is set, processing any further frame
sequence, with arbitrary vehicle distributions, leaves it unchanged. -/
theorem vehicleOffset_frozen (mapData : Option MapDataType) (s : RenderState)
    (o : ℚ × ℚ) (h : s.vehicleOffset = some o) (frames : List (List VehicleData)) :
    (processFrames mapData s frames).vehicleOffset = some o := by
  induction frames generalizing s with
  | nil => simpa [processFrames] using h
  | cons f fs ih =>
    have hstep : ((renderStep mapData f s).1).vehicleOffset = some o := by
      simp [renderStep, h]
    have : processFrames mapData s (f :: fs)
        = processFrames mapData (renderStep mapData f s).1 fs := rfl
    rw [this]
    exact ih _ hstep

/-- Witness for C2: a frozen offset of `(-500, -500)` survives three
further frames with different vehicle distributions. -/
theorem vehicleOffset_frozen_witness :
    (processFrames (some scenarioMap) ⟨some defaultMapBounds, some (-500, -500)⟩
      [[], [⟨2, 9000, -9000, 1, 1, 1, none, none, none⟩], [scenarioVehicle]]).vehicleOffset
      = some (-500, -500) :=
  vehicleOffset_frozen (some scenarioMap) ⟨some defaultMapBounds, some (-500, -500)⟩
    (-500, -500) rfl [[], [⟨2, 9000, -9000, 1, 1, 1, none, none, none⟩], [scenarioVehicle]]

/-- C3: processing any frame never shrinks the locked focus region:
the new minima are ≤ the previous minima and the new maxima are ≥ the
previous maxima. -/
theorem lockedFocusBounds_monotone (mapData : Option MapDataType)
    (vehicles : List VehicleData) (s : RenderState) (b : Bounds)
    (h : s.lockedFocusBounds = some b) :
    ∃ b2, (renderStep mapData vehicles s).1.lockedFocusBounds = some b2 ∧
      b2.minX ≤ b.minX ∧ b.maxX ≤ b2.maxX ∧ b2.minZ ≤ b.minZ ∧ b.maxZ ≤ b2.maxZ := by
  cases hvb : vehicleBoundsOf vehicles with
  | none =>
    refine ⟨b, ?_, le_refl _, le_refl _, le_refl _, le_refl _⟩
    simp [renderStep, h, hvb]
  | some vb =>
    refine ⟨expandBounds b (focusBoundsOf (mapBoundsOf mapData) (some vb)), ?_, ?_, ?_, ?_, ?_⟩
    · simp [renderStep, h, hvb]
    · exact min_le_left _ _
    · exact le_max_left _ _
    · exact min_le_left _ _
    · exact le_max_left _ _

/-- Witness for C3: a concrete locked region only expands when a frame
with a far-away vehicle is processed. -/
theorem lockedFocusBounds_monotone_witness :
    ∃ b2, (renderStep (some scenarioMap) [scenarioVehicle]
        ⟨some ⟨-150, 150, -70, 70⟩, none⟩).1.lockedFocusBounds = some b2 ∧
      b2.minX ≤ (-150 : ℚ) ∧ (150 : ℚ) ≤ b2.maxX ∧
      b2.minZ ≤ (-70 : ℚ) ∧ (70 : ℚ) ≤ b2.maxZ :=
  lockedFocusBounds_monotone (some scenarioMap) [scenarioVehicle]
    ⟨some ⟨-150, 150, -70, 70⟩, none⟩ ⟨-150, 150, -70, 70⟩ rfl

/-- C10: applying a set offset is a pure planar translation: the
adjusted list is exactly the input list mapped through a shift of `x`
and `y` by the offset components, so length and order are preserved and
the shift map leaves `id`, `vx`, `vy`, `heading`, `length`, `width` and
`type` untouched. -/
theorem adjustedVehicles_pure_translation (o : ℚ × ℚ) (vehicles : List VehicleData) :
    adjustedVehiclesOf (some o) vehicles
      = vehicles.map (fun v => { v with x := v.x + o.1, y := v.y + o.2 }) ∧
    (adjustedVehiclesOf (some o) vehicles).length = vehicles.length ∧
    ∀ v : VehicleData,
      ({ v with x := v.x + o.1, y := v.y + o.2 } : VehicleData).id = v.id ∧
      ({ v with x := v.x + o.1, y := v.y + o.2 } : VehicleData).vx = v.vx ∧
      ({ v with x := v.x + o.1, y := v.y + o.2 } : VehicleData).vy = v.vy ∧
      ({ v with x := v.x + o.1, y := v.y + o.2 } : VehicleData).heading = v.heading ∧
      ({ v with x := v.x + o.1, y := v.y + o.2 } : VehicleData).length = v.length ∧
      ({ v with x := v.x + o.1, y := v.y + o.2 } : VehicleData).width = v.width ∧
      ({ v with x := v.x + o.1, y := v.y + o.2 } : VehicleData).type = v.type := by
  have hmap : adjustedVehiclesOf (some o) vehicles
      = vehicles.map (fun v => { v with x := v.x + o.1, y := v.y + o.2 }) := by
    by_cases h0 : o.1 = 0 ∧ o.2 = 0
    · simp only [adjustedVehiclesOf, if_pos h0]
      rw [h0.1, h0.2, map_zero_shift]
    · simp only [adjustedVehiclesOf, if_neg h0]
  refine ⟨hmap, ?_, ?_⟩
  · rw [hmap, List.length_map]
  · intro v
    exact ⟨rfl, rfl, rfl, rfl, rfl, rfl, rfl⟩

/-- Outgoing stream-start control message built by `startSessionStream`
(`useWebSocket.ts`, lines 350-354). -/
structure StartStreamMessage where
  type : String
  session_id : String
  fps : ℚ
deriving DecidableEq, Repr

/-- The message-construction core of `startSessionStream`
(`useWebSocket.ts`, lines 320-358): whenever a send happens, the payload
is `{type: "start_session_stream", session_id, fps}` with `fps`
defaulting to 25 when the caller omits it. -/
def startSessionStream (sessionId : String) (fps : ℚ := 25) : StartStreamMessage :=
  { type := "start_session_stream", session_id := sessionId, fps := fps }

/-- C4: a call of `startSessionStream` with the `fps` argument omitted
produces a `start_session_stream` message carrying `fps = 25`. -/
theorem startSessionStream_default_fps (sessionId : String) :
    startSessionStream sessionId
      = { type := "start_session_stream", session_id := sessionId, fps := 25 } ∧
    (startSessionStream sessionId).fps = 25 :=
  ⟨rfl, rfl⟩

/-- Wire payload of a `simulation_frame` message's `data` field: only a
timestamp and the vehicle list (spec §6 vehicle wire schema;
`useWebSocket.ts`, line 248 comment). -/
structure FrameWire where
  timestamp : ℚ
  vehicles : List VehicleData
deriving DecidableEq, Repr

/-- Incoming channel message as the hook sees it (`useWebSocket.ts`,
lines 187-199): `frame_number` and `session_id` live at the top level,
`data` is the nested frame payload. -/
structure WSMessage where
  type : String
  session_id : Option String
  frame_number : Option Nat
  data : Option FrameWire
deriving DecidableEq, Repr

/-- The client-side frame state (`useWebSocket.ts`, lines 201-207). -/
structure SimulationFrameData where
  session_id : Option String
  frame_number : Option Nat
  timestamp : Option ℚ
  vehicles : Option (List VehicleData)
deriving DecidableEq, Repr

/-- The `simulation_frame` branch of the message handler
(`useWebSocket.ts`, lines 247-255): spreads `message.data` and merges
the top-level `frame_number` and `session_id` into the stored frame
state. -/
def handleSimulationFrame (msg : WSMessage) : SimulationFrameData :=
  { session_id := msg.session_id
    frame_number := msg.frame_number
    timestamp := msg.data.map FrameWire.timestamp
    vehicles := msg.data.map FrameWire.vehicles }

/-- The frame number the dashboard displays,
`frameData.frame_number || 0` (`dashboard/page.tsx`, line 108). -/
def displayedFrameNumber (fd : SimulationFrameData) : Nat :=
  fd.frame_number.getD 0

/-- C5: the stored frame state takes its frame number from the
message's top level while timestamp and vehicles come from `data`, so
the displayed frame number equals the top-level `frame_number` of the
message. -/
theorem simulationFrame_preserves_split (msg : WSMessage) (n : Nat)
    (h : msg.frame_number = some n) :
    (handleSimulationFrame msg).frame_number = some n ∧
    displayedFrameNumber (handleSimulationFrame msg) = n ∧
    (handleSimulationFrame msg).timestamp = msg.data.map FrameWire.timestamp ∧
    (handleSimulationFrame msg).vehicles = msg.data.map FrameWire.vehicles := by
  refine ⟨?_, ?_, rfl, rfl⟩
  · simp [handleSimulationFrame, h]
  · simp [displayedFrameNumber, handleSimulationFrame, h]

/-- Witness for C5: a concrete `simulation_frame` message with
top-level frame number 7 yields frame state and display value 7. -/
theorem simulationFrame_preserves_split_witness :
    (handleSimulationFrame ⟨"simulation_frame", some "sid", some 7,
        some ⟨40, [scenarioVehicle]⟩⟩).frame_number = some 7 ∧
    displayedFrameNumber (handleSimulationFrame ⟨"simulation_frame", some "sid", some 7,
        some ⟨40, [scenarioVehicle]⟩⟩) = 7 :=
  ⟨(simulationFrame_preserves_split ⟨"simulation_frame", some "sid", some 7,
      some ⟨40, [scenarioVehicle]⟩⟩ 7 rfl).1,
   (simulationFrame_preserves_split ⟨"simulation_frame", some "sid", some 7,
      some ⟨40, [scenarioVehicle]⟩⟩ 7 rfl).2.1⟩

/-- One oriented road segment as synthesized from a polyline edge
(`visualization.tsx`, lines 12-29).  The source stores the planar
midpoint together with the edge's length `Math.sqrt(dx*dx + dz*dz)` and
rotation angle `Math.atan2(dx, dz)`; the embedding stores the midpoint
and the exact edge vector `(dx, dz)`, from which both are derived below
(`Segment.len`, `Segment.angle`). -/
structure Segment where
  midX : ℚ
  midZ : ℚ
  dx : ℚ
  dz : ℚ
deriving DecidableEq, Repr

/-- Squared planar length of a segment's edge vector. -/
def segLenSq (s : Segment) : ℚ := s.dx ^ 2 + s.dz ^ 2

/-- The segment length stored by the source: `Math.sqrt(dx*dx + dz*dz)`
(`visualization.tsx`, line 22). -/
noncomputable def Segment.len (s : Segment) : ℝ :=
  Real.sqrt ((segLenSq s : ℚ) : ℝ)

/-- The rotation angle stored by the source: `Math.atan2(dx, dz)`
(`visualization.tsx`, line 25), expressed as the argument of the
complex number `dz + dx*i` (the standard `atan2(y, x) = arg(x + y*i)`
identity). -/
noncomputable def Segment.angle (s : Segment) : ℝ :=
  Complex.arg ⟨(s.dz : ℝ), (s.dx : ℝ)⟩

/-- Square of the degeneracy epsilon: the source skips edges with
`len < 1e-3` (`visualization.tsx`, line 23); over nonnegative reals
that is equivalent to `len² < 1e-6`, the exact-rational form used by
the embedding.  The source's companion `!Number.isFinite(len)` skip can
never fire over exact rationals, which are always finite. -/
def epsSq : ℚ := 1 / 1000000

/-- The geometry synthesizer `polylineToSegments` (`visualization.tsx`,
lines 12-29): for each consecutive point pair it emits the planar
midpoint, edge vector and (derived) length and angle, skipping
degenerate edges. -/
def polylineToSegments : List (ℚ × ℚ × ℚ) → List Segment
  | [] => []
  | [_] => []
  | a :: b :: rest =>
    if (b.1 - a.1) ^ 2 + (b.2.2 - a.2.2) ^ 2 < epsSq then
      polylineToSegments (b :: rest)
    else
      { midX := (a.1 + b.1) / 2, midZ := (a.2.2 + b.2.2) / 2,
        dx := b.1 - a.1, dz := b.2.2 - a.2.2 } :: polylineToSegments (b :: rest)

/-- C6: the geometry synthesizer is a pure function (identical output on
repeated evaluation), and on the two-point polyline
`[[0,0,0],[10,0,0]]` it produces exactly one segment of length 10 with
planar midpoint `(5, 0)` and rotation angle `π/2` about the vertical
axis, which carries the unit segment scaled by the length onto the
x-axis: `(len·sin θ, len·cos θ) = (10, 0)`. -/
theorem polylineToSegments_two_point :
    (∀ coords : List (ℚ × ℚ × ℚ), polylineToSegments coords = polylineToSegments coords) ∧
    polylineToSegments [(0, 0, 0), (10, 0, 0)] = [⟨5, 0, 10, 0⟩] ∧
    Segment.len ⟨5, 0, 10, 0⟩ = 10 ∧
    Segment.angle ⟨5, 0, 10, 0⟩ = Real.pi / 2 ∧
    10 * Real.sin (Segment.angle ⟨5, 0, 10, 0⟩) = 10 ∧
    10 * Real.cos (Segment.angle ⟨5, 0, 10, 0⟩) = 0 := by
  have hangle : Segment.angle ⟨5, 0, 10, 0⟩ = Real.pi / 2 := by
    apply Complex.arg_eq_pi_div_two_iff.mpr
    constructor
    · norm_num
    · norm_num
  refine ⟨fun _ => rfl, ?_, ?_, hangle, ?_, ?_⟩
  · norm_num [polylineToSegments, epsSq]
  · have h100 : ((segLenSq ⟨5, 0, 10, 0⟩ : ℚ) : ℝ) = 100 := by
      norm_num [segLenSq]
    rw [Segment.len, h100, show (100 : ℝ) = 10 ^ 2 by norm_num,
      Real.sqrt_sq (by norm_num)]
  · rw [hangle, Real.sin_pi_div_two]; norm_num
  · rw [hangle, Real.cos_pi_div_two]; norm_num

/-- C7: pairs whose squared planar length is below the epsilon
contribute no segment, and consequently every emitted segment has
squared length at least `1e-6`, hence length at least `1e-3` — no
zero-length geometry is emitted. -/
theorem polylineToSegments_no_degenerate :
    (∀ (a b : ℚ × ℚ × ℚ) (rest : List (ℚ × ℚ × ℚ)),
      (b.1 - a.1) ^ 2 + (b.2.2 - a.2.2) ^ 2 < epsSq →
      polylineToSegments (a :: b :: rest) = polylineToSegments (b :: rest)) ∧
    (∀ (coords : List (ℚ × ℚ × ℚ)) (s : Segment), s ∈ polylineToSegments coords →
      epsSq ≤ segLenSq s ∧ (1 / 1000 : ℝ) ≤ Segment.len s) := by
  have hmem : ∀ (coords : List (ℚ × ℚ × ℚ)) (s : Segment),
      s ∈ polylineToSegments coords → epsSq ≤ segLenSq s := by
    intro coords
    induction coords with
    | nil => intro s h; simp [polylineToSegments] at h
    | cons a tail ih =>
      cases tail with
      | nil => intro s h; simp [polylineToSegments] at h
      | cons b rest =>
        intro s h
        rw [polylineToSegments] at h
        by_cases hc : (b.1 - a.1) ^ 2 + (b.2.2 - a.2.2) ^ 2 < epsSq
        · rw [if_pos hc] at h
          exact ih s h
        · rw [if_neg hc] at h
          rcases List.mem_cons.mp h with h1 | h2
          · subst h1
            simpa [segLenSq] using not_lt.mp hc
          · exact ih s h2
  refine ⟨?_, ?_⟩
  · intro a b rest hc
    rw [polylineToSegments, if_pos hc]
  · intro coords s h
    refine ⟨hmem coords s h, ?_⟩
    have hcast : ((1 : ℝ) / 1000) ^ 2 ≤ ((segLenSq s : ℚ) : ℝ) := by
      have := hmem coords s h
      have hq : ((epsSq : ℚ) : ℝ) ≤ ((segLenSq s : ℚ) : ℝ) := by exact_mod_cast this
      calc ((1 : ℝ) / 1000) ^ 2 = ((epsSq : ℚ) : ℝ) := by norm_num [epsSq]
        _ ≤ _ := hq
    exact (Real.le_sqrt' (by norm_num)).mpr hcast

/-- Witness for C7: the single segment emitted for the polyline
`[[0,0,0],[10,0,0]]` has squared length at least `1e-6` and length at
least `1e-3`. -/
theorem polylineToSegments_no_degenerate_witness :
    epsSq ≤ segLenSq ⟨5, 0, 10, 0⟩ ∧ (1 / 1000 : ℝ) ≤ Segment.len ⟨5, 0, 10, 0⟩ :=
  polylineToSegments_no_degenerate.2 [(0, 0, 0), (10, 0, 0)] ⟨5, 0, 10, 0⟩
    (by norm_num [polylineToSegments, epsSq])

/-- Viewport aspect computation (`visualization.tsx`, lines 388-389):
`width / height` when both are positive, else 1. -/
def aspectOf (w h : ℚ) : ℚ := if 0 < w ∧ 0 < h then w / h else 1

/-- The viewport aspect value is always positive. -/
theorem aspectOf_pos (w h : ℚ) : 0 < aspectOf w h := by
  unfold aspectOf
  split
  · next hc => exact div_pos hc.1 hc.2
  · exact one_pos

/-- The adaptive camera height computation (`visualization.tsx`, lines
375-394): target visible extents with floors, the derived horizontal
field of view, the height required for each extent, and the maximum of
both with the 200 floor. -/
noncomputable def adaptiveCameraHeight (mb : Bounds) (fovDeg aspect : ℝ) : ℝ :=
  let sceneWidth : ℝ := ((mb.maxX - mb.minX : ℚ) : ℝ)
  let sceneDepth : ℝ := ((mb.maxZ - mb.minZ : ℚ) : ℝ)
  let desiredVisibleX := max (sceneWidth / 3) 120
  let desiredVisibleZ := max (sceneDepth * 1.2) 60
  let halfX := desiredVisibleX / 2
  let halfZ := desiredVisibleZ / 2
  let fovRad := fovDeg * Real.pi / 180
  let hFovRad := 2 * Real.arctan (Real.tan (fovRad / 2) * aspect)
  let heightForZ := halfZ / Real.tan (fovRad / 2)
  let heightForX := halfX / Real.tan (hFovRad / 2)
  max (max heightForX heightForZ) 200

/-- The camera pose set on initialization (`visualization.tsx`, line
398): directly overhead at the computed height, with the 0.1 lateral
offset that avoids the up-vector singularity. -/
noncomputable def adaptiveCameraPosition (mb : Bounds) (fovDeg aspect : ℝ) : ℝ × ℝ × ℝ :=
  (0, adaptiveCameraHeight mb fovDeg aspect, 0.1)

/-- The look-at target set on initialization (`visualization.tsx`,
lines 402-409): the origin. -/
def adaptiveCameraTarget : ℝ × ℝ × ℝ := (0, 0, 0)

/-- Number of times the camera-initialization body executes across `n`
invocations of the effect, given the `initializedRef` guard
(`visualization.tsx`, lines 367-373): an invocation with the flag
already set returns early and every invocation sets the flag. -/
def adaptiveCameraRuns : Nat → Bool → Nat
  | 0, _ => 0
  | n + 1, initialized => (if initialized then 0 else 1) + adaptiveCameraRuns n true

/-- Once the guard flag is set, the initialization body never executes
again. -/
theorem adaptiveCameraRuns_true (n : Nat) : adaptiveCameraRuns n true = 0 := by
  induction n with
  | zero => rfl
  | succ n ih => simp [adaptiveCameraRuns, ih]

/-- C8: camera initialization computes visible extents
`max(mapWidth/3, 120)` and `max(1.2 * mapDepth, 60)`, derives the
horizontal field of view so that `tan(hFov/2) = tan(fov/2) * aspect`,
takes the larger of the two required heights subject to the 200 floor
(so both extents fit at the chosen height), places the camera overhead
looking at the origin, and runs at most once per rendering session. -/
theorem adaptiveCamera_policy (mb : Bounds) (fovDeg aspect : ℝ)
    (ht : 0 < Real.tan (fovDeg * Real.pi / 180 / 2)) (ha : 0 < aspect) :
    Real.tan (2 * Real.arctan (Real.tan (fovDeg * Real.pi / 180 / 2) * aspect) / 2)
      = Real.tan (fovDeg * Real.pi / 180 / 2) * aspect ∧
    adaptiveCameraHeight mb fovDeg aspect
      = max (max ((max (((mb.maxX - mb.minX : ℚ) : ℝ) / 3) 120 / 2)
                    / (Real.tan (fovDeg * Real.pi / 180 / 2) * aspect))
               ((max (((mb.maxZ - mb.minZ : ℚ) : ℝ) * 1.2) 60 / 2)
                    / Real.tan (fovDeg * Real.pi / 180 / 2))) 200 ∧
    200 ≤ adaptiveCameraHeight mb fovDeg aspect ∧
    max (((mb.maxX - mb.minX : ℚ) : ℝ) / 3) 120 / 2
      ≤ adaptiveCameraHeight mb fovDeg aspect
          * (Real.tan (fovDeg * Real.pi / 180 / 2) * aspect) ∧
    max (((mb.maxZ - mb.minZ : ℚ) : ℝ) * 1.2) 60 / 2
      ≤ adaptiveCameraHeight mb fovDeg aspect * Real.tan (fovDeg * Real.pi / 180 / 2) ∧
    adaptiveCameraPosition mb fovDeg aspect
      = (0, adaptiveCameraHeight mb fovDeg aspect, 0.1) ∧
    adaptiveCameraTarget = (0, 0, 0) ∧
    (∀ n, adaptiveCameraRuns n false ≤ 1) := by
  have htan : Real.tan (2 * Real.arctan (Real.tan (fovDeg * Real.pi / 180 / 2) * aspect) / 2)
      = Real.tan (fovDeg * Real.pi / 180 / 2) * aspect := by
    rw [show (2 : ℝ) * Real.arctan (Real.tan (fovDeg * Real.pi / 180 / 2) * aspect) / 2
        = Real.arctan (Real.tan (fovDeg * Real.pi / 180 / 2) * aspect) by ring,
      Real.tan_arctan]
  have hheight : adaptiveCameraHeight mb fovDeg aspect
      = max (max ((max (((mb.maxX - mb.minX : ℚ) : ℝ) / 3) 120 / 2)
                    / (Real.tan (fovDeg * Real.pi / 180 / 2) * aspect))
               ((max (((mb.maxZ - mb.minZ : ℚ) : ℝ) * 1.2) 60 / 2)
                    / Real.tan (fovDeg * Real.pi / 180 / 2))) 200 := by
    simp only [adaptiveCameraHeight]
    rw [htan]
  have hta : 0 < Real.tan (fovDeg * Real.pi / 180 / 2) * aspect := mul_pos ht ha
  refine ⟨htan, hheight, ?_, ?_, ?_, rfl, rfl, ?_⟩
  · rw [hheight]; exact le_max_right _ _
  · have hle : max (((mb.maxX - mb.minX : ℚ) : ℝ) / 3) 120 / 2
        / (Real.tan (fovDeg * Real.pi / 180 / 2) * aspect)
        ≤ adaptiveCameraHeight mb fovDeg aspect := by
      rw [hheight]
      exact le_trans (le_max_left _ _) (le_max_left _ _)
    exact (div_le_iff₀ hta).mp hle
  · have hle : max (((mb.maxZ - mb.minZ : ℚ) : ℝ) * 1.2) 60 / 2
        / Real.tan (fovDeg * Real.pi / 180 / 2)
        ≤ adaptiveCameraHeight mb fovDeg aspect := by
      rw [hheight]
      exact le_trans (le_max_right _ _) (le_max_left _ _)
    exact (div_le_iff₀ ht).mp hle
  · intro n
    cases n with
    | zero => exact Nat.zero_le 1
    | succ n => simp [adaptiveCameraRuns, adaptiveCameraRuns_true]

/-- Witness for C8: at the canvas field of view of 45 degrees and a
16:9 viewport, the hypotheses hold and the computed camera height
respects the 200 floor. -/
theorem adaptiveCamera_policy_witness :
    0 < Real.tan ((45 : ℝ) * Real.pi / 180 / 2) ∧
    0 < ((aspectOf 1600 900 : ℚ) : ℝ) ∧
    200 ≤ adaptiveCameraHeight ⟨-150, 150, -70, 70⟩ 45 ((aspectOf 1600 900 : ℚ) : ℝ) := by
  have h8 : (45 : ℝ) * Real.pi / 180 / 2 = Real.pi / 8 := by ring
  have ht : 0 < Real.tan ((45 : ℝ) * Real.pi / 180 / 2) := by
    rw [h8]
    apply Real.tan_pos_of_pos_of_lt_pi_div_two
    · positivity
    · nlinarith [Real.pi_pos]
  have ha : (0 : ℝ) < ((aspectOf 1600 900 : ℚ) : ℝ) := by
    exact_mod_cast aspectOf_pos 1600 900
  exact ⟨ht, ha,
    (adaptiveCamera_policy ⟨-150, 150, -70, 70⟩ 45 ((aspectOf 1600 900 : ℚ) : ℝ) ht ha).2.2.1⟩

end TacticsWeb
